import Mathlib

set_option maxHeartbeats 1000000
set_option maxRecDepth 100000

/-!
Shallow embedding of the data-gateway service (Go, gin).  The repository holds
two variants of the service: a MongoDB-backed one (`src/main.go`, the full field
set with `created_at`) and a SQLite-backed one (`src/unnamed/part_001`, six
columns, plus the KML track export).  Both are embedded below: the `Location`
structure and the `handle...` functions mirror `src/main.go`; the `SLocation`
structure and the `s...` functions mirror `src/unnamed/part_001`.  The record
stores are modelled as the list of inserted rows in insertion order; the
database engine's filtering and sorting, requested by the handlers through
`bson.M` filters resp. SQL `WHERE`/`ORDER BY` clauses, is modelled by `List.filter`
and a stable `List.mergeSort` on those lists.
-/

/-- Model of Go float64 values carried by location records.  The program performs
no arithmetic on coordinates (they are only decoded from JSON, stored, compared
and formatted), so the values are modelled as integers. -/
abbrev Float64 := Int

/-- JSON values as consumed by encoding/json; numbers are modelled as `Float64`. -/
inductive Json where
  | null : Json
  | bool (b : Bool) : Json
  | num (x : Float64) : Json
  | str (s : String) : Json
  | arr (elems : List Json) : Json
  | obj (fields : List (String × Json)) : Json

/-- The `Location` struct of the MongoDB variant (src/main.go lines 17-25).
The `time.Time` field `CreatedAt` is modelled by its RFC3339 string. -/
structure Location where
  deployment : String
  platform : String
  latitude : Float64
  longitude : Float64
  timestamp : String
  source : String
  createdAt : String
deriving DecidableEq, Repr

/-- The `Location` struct of the SQLite variant (src/unnamed/part_001 lines 15-22):
same six JSON fields, no `created_at`. -/
structure SLocation where
  deployment : String
  platform : String
  latitude : Float64
  longitude : Float64
  timestamp : String
  source : String
deriving DecidableEq, Repr

/-- Response bodies produced by the handlers. -/
inductive RespBody where
  | kv (pairs : List (String × String))
  | mlocs (locs : List Location)
  | slocs (locs : List SLocation)
  | strs (ss : List String)
  | text (s : String)
deriving DecidableEq, Repr

/-- An HTTP response: status code, body, and extra headers (set only by the KML
download handler). -/
structure Response where
  status : Nat
  body : RespBody
  headers : List (String × String) := []
deriving DecidableEq, Repr

/-- The zero value of the `Location` struct, which is what encoding/json leaves
in any field whose key is absent from the request body. -/
def zeroLocation : Location :=
  { deployment := "", platform := "", latitude := 0, longitude := 0
    timestamp := "", source := "", createdAt := "" }

/-- Whether a JSON value may be decoded into a Go string field: a string, or a
null (which encoding/json treats as a no-op). -/
def strOrNull : Json → Bool
  | .str _ => true
  | .null => true
  | _ => false

/-- Whether a JSON value may be decoded into a Go float64 field: a number, or a
null (a no-op). -/
def numOrNull : Json → Bool
  | .num _ => true
  | .null => true
  | _ => false

/-- Whether JSON value `v` may be decoded into the struct field keyed `k`:
string fields take strings, float64 fields take numbers, `created_at`
(a `time.Time`) takes its string form; JSON null leaves any field untouched;
keys not naming a struct field are ignored by encoding/json. -/
def fieldOk (k : String) (v : Json) : Bool :=
  if k == "deployment" || k == "platform" || k == "timestamp" || k == "source"
      || k == "created_at" then
    strOrNull v
  else if k == "latitude" || k == "longitude" then
    numOrNull v
  else true

/-- Decode one object field into the `Location` struct, mirroring encoding/json:
a known key with a wrong-typed value is an UnmarshalTypeError, a null leaves the
field untouched, an unknown key is skipped (DisallowUnknownFields is not set). -/
def applyField (loc : Location) (k : String) (v : Json) : Except String Location :=
  if k == "deployment" then
    match v with
    | .str s => .ok { loc with deployment := s }
    | .null => .ok loc
    | _ => .error "cannot unmarshal into field deployment of type string"
  else if k == "platform" then
    match v with
    | .str s => .ok { loc with platform := s }
    | .null => .ok loc
    | _ => .error "cannot unmarshal into field platform of type string"
  else if k == "timestamp" then
    match v with
    | .str s => .ok { loc with timestamp := s }
    | .null => .ok loc
    | _ => .error "cannot unmarshal into field timestamp of type string"
  else if k == "source" then
    match v with
    | .str s => .ok { loc with source := s }
    | .null => .ok loc
    | _ => .error "cannot unmarshal into field source of type string"
  else if k == "created_at" then
    match v with
    | .str s => .ok { loc with createdAt := s }
    | .null => .ok loc
    | _ => .error "cannot unmarshal into field created_at of type time.Time"
  else if k == "latitude" then
    match v with
    | .num x => .ok { loc with latitude := x }
    | .null => .ok loc
    | _ => .error "cannot unmarshal into field latitude of type float64"
  else if k == "longitude" then
    match v with
    | .num x => .ok { loc with longitude := x }
    | .null => .ok loc
    | _ => .error "cannot unmarshal into field longitude of type float64"
  else .ok loc

/-- gin's ShouldBindJSON into the mongo-variant `Location` struct: the body must
be a JSON object, whose fields are decoded in order into the zero-valued struct.
The struct carries no binding tags, so nothing checks that a field is present:
absent fields simply keep their zero values. -/
def bindJSON : Json → Except String Location
  | .obj fields => fields.foldlM (fun loc kv => applyField loc kv.1 kv.2) zeroLocation
  | _ => .error "cannot unmarshal into Go struct Location"

/-- The MongoDB collection, modelled as the list of inserted documents in
insertion order. -/
abbrev MStore := List Location

/-- handlePostLocation of the MongoDB variant (src/main.go 81-97): bind the JSON
body (400 with the parser message on failure), set `CreatedAt` to the current
server time, insert, and answer 200 success.  `now` stands for the value of
`time.Now()` during this request. -/
def handlePostLocation (now : String) (body : Json) (s : MStore) : Response × MStore :=
  match bindJSON body with
  | .error e => ({ status := 400, body := .kv [("error", e)] }, s)
  | .ok loc =>
    ({ status := 200, body := .kv [("status", "success")] },
     s ++ [{ loc with createdAt := now }])

/-- The `bson.M` filter built at src/main.go 103-109: an equality condition on
`deployment` and one on `platform`, each included only when the corresponding
query parameter is non-empty. -/
def matchFilter (dep plat : String) (r : Location) : Bool :=
  (dep == "" || r.deployment == dep) && (plat == "" || r.platform == plat)

/-- Code-point comparison of character lists: the order in which both a BSON
string sort and SQLite text comparison see the stored timestamps (each compares
UTF-8 bytes, which agrees with code-point order). -/
def charListLe : List Char → List Char → Bool
  | [], _ => true
  | _ :: _, [] => false
  | a :: as, b :: bs =>
    if a.toNat < b.toNat then true
    else if b.toNat < a.toNat then false
    else charListLe as bs

/-- String comparison on the underlying character lists. -/
def strLe (a b : String) : Bool := charListLe a.data b.data

/-- The comparison underlying the ascending `timestamp` sort requested from
MongoDB (string comparison on the stored timestamp). -/
def tsLe (a b : Location) : Prop := strLe a.timestamp b.timestamp = true

instance : DecidableRel tsLe :=
  fun a b => inferInstanceAs (Decidable (strLe a.timestamp b.timestamp = true))

/-- handleGetLocations of the MongoDB variant (src/main.go 99-126): `Find` with
the optional equality filter and an ascending sort on `timestamp`; the sort the
engine performs is modelled as a stable insertion sort of the matching
documents in insertion order. -/
def handleGetLocations (dep plat : String) (s : MStore) : Response × MStore :=
  ({ status := 200,
     body := .mlocs ((s.filter (matchFilter dep plat)).insertionSort tsLe) }, s)

/-- Append `x` to `acc` unless already present: one step of collecting distinct
values in first-appearance order. -/
def addDistinct (acc : List String) (x : String) : List String :=
  if x ∈ acc then acc else acc ++ [x]

/-- Distinct values of a list in first-appearance order.  MongoDB `Distinct` and
SQL `SELECT DISTINCT` leave the result order unspecified; the model fixes
first-appearance order, on which none of the verified facts depend. -/
def distinctFirst (l : List String) : List String := l.foldl addDistinct []

/-- handleGetDeployments of the MongoDB variant (src/main.go 128-136):
`Distinct "deployment"` with an empty filter. -/
def handleGetDeployments (s : MStore) : Response × MStore :=
  ({ status := 200, body := .strs (distinctFirst (s.map (·.deployment))) }, s)

/-- handleGetPlatforms of the MongoDB variant (src/main.go 138-147):
`Distinct "platform"` over the documents of the given deployment. -/
def handleGetPlatforms (dep : String) (s : MStore) : Response × MStore :=
  ({ status := 200,
     body := .strs (distinctFirst ((s.filter (fun r => r.deployment == dep)).map (·.platform))) }, s)

/-- The zero value of the SQLite-variant `Location` struct. -/
def sZeroLocation : SLocation :=
  { deployment := "", platform := "", latitude := 0, longitude := 0
    timestamp := "", source := "" }

/-- Decode one object field into the SQLite-variant struct; identical to
`applyField` except that this struct has no `created_at` field, so that key is
an unknown key and is skipped. -/
def sApplyField (loc : SLocation) (k : String) (v : Json) : Except String SLocation :=
  if k == "deployment" then
    match v with
    | .str s => .ok { loc with deployment := s }
    | .null => .ok loc
    | _ => .error "cannot unmarshal into field deployment of type string"
  else if k == "platform" then
    match v with
    | .str s => .ok { loc with platform := s }
    | .null => .ok loc
    | _ => .error "cannot unmarshal into field platform of type string"
  else if k == "timestamp" then
    match v with
    | .str s => .ok { loc with timestamp := s }
    | .null => .ok loc
    | _ => .error "cannot unmarshal into field timestamp of type string"
  else if k == "source" then
    match v with
    | .str s => .ok { loc with source := s }
    | .null => .ok loc
    | _ => .error "cannot unmarshal into field source of type string"
  else if k == "latitude" then
    match v with
    | .num x => .ok { loc with latitude := x }
    | .null => .ok loc
    | _ => .error "cannot unmarshal into field latitude of type float64"
  else if k == "longitude" then
    match v with
    | .num x => .ok { loc with longitude := x }
    | .null => .ok loc
    | _ => .error "cannot unmarshal into field longitude of type float64"
  else .ok loc

/-- gin's ShouldBindJSON into the SQLite-variant struct. -/
def sBindJSON : Json → Except String SLocation
  | .obj fields => fields.foldlM (fun loc kv => sApplyField loc kv.1 kv.2) sZeroLocation
  | _ => .error "cannot unmarshal into Go struct Location"

/-- The SQLite `locations` table, modelled as the list of inserted rows in
rowid (insertion) order. -/
abbrev SStore := List SLocation

/-- handlePostLocation of the SQLite variant (src/unnamed/part_001 102-123):
bind the JSON body (400 with the parser message on failure) and INSERT the six
columns; 200 success. -/
def sPostLocation (body : Json) (s : SStore) : Response × SStore :=
  match sBindJSON body with
  | .error e => ({ status := 400, body := .kv [("error", e)] }, s)
  | .ok loc => ({ status := 200, body := .kv [("status", "success")] }, s ++ [loc])

/-- handleGetLocations of the SQLite variant (src/unnamed/part_001 125-158).
The WHERE clause is built by string concatenation: `deployment = ?` is added
when the deployment parameter is non-empty, and `AND platform = ?` is added
only nested inside that case, so a platform parameter without a deployment
parameter is ignored.  The SELECT has no ORDER BY: rows come back in table
(insertion) order. -/
def sGetLocations (dep plat : String) (s : SStore) : Response × SStore :=
  let rows :=
    if dep == "" then s
    else if plat == "" then s.filter (fun r => r.deployment == dep)
    else s.filter (fun r => r.deployment == dep && r.platform == plat)
  ({ status := 200, body := .slocs rows }, s)

/-- handleGetDeployments of the SQLite variant (src/unnamed/part_001 160-179):
SELECT DISTINCT deployment. -/
def sGetDeployments (s : SStore) : Response × SStore :=
  ({ status := 200, body := .strs (distinctFirst (s.map (·.deployment))) }, s)

/-- handleGetPlatforms of the SQLite variant (src/unnamed/part_001 181-201):
SELECT DISTINCT platform WHERE deployment = ?. -/
def sGetPlatforms (dep : String) (s : SStore) : Response × SStore :=
  ({ status := 200,
     body := .strs (distinctFirst ((s.filter (fun r => r.deployment == dep)).map (·.platform))) }, s)

/-- The anonymous per-point struct of handleDownloadKML (src/unnamed/part_001
228-232): latitude, longitude, timestamp. -/
structure KPoint where
  latitude : Float64
  longitude : Float64
  timestamp : String
deriving DecidableEq, Repr

/-- Projection of a scanned row onto the per-point struct. -/
def toPoint (r : SLocation) : KPoint :=
  { latitude := r.latitude, longitude := r.longitude, timestamp := r.timestamp }

/-- Comparison underlying ORDER BY timestamp on the SQLite rows. -/
def sTsLe (a b : SLocation) : Prop := strLe a.timestamp b.timestamp = true

instance : DecidableRel sTsLe :=
  fun a b => inferInstanceAs (Decidable (strLe a.timestamp b.timestamp = true))

/-- The SELECT of handleDownloadKML (src/unnamed/part_001 line 205): the rows of
the given deployment, ORDER BY timestamp (modelled as a stable insertion
sort). -/
def kmlRows (dep : String) (s : SStore) : List SLocation :=
  (s.filter (fun r => r.deployment == dep)).insertionSort sTsLe

/-- Append a point to its platform's group, mirroring
`platformData[platform] = append(platformData[platform], point)`
(src/unnamed/part_001 242-246).  A new platform opens a new group at the end. -/
def insertPoint (acc : List (String × List KPoint)) (p : String) (pt : KPoint) :
    List (String × List KPoint) :=
  match acc with
  | [] => [(p, [pt])]
  | (q, pts) :: rest =>
    if q == p then (q, pts ++ [pt]) :: rest else (q, pts) :: insertPoint rest p pt

/-- The platformData map of handleDownloadKML (src/unnamed/part_001 228-247),
built by scanning the timestamp-ordered rows and appending each row's point to
its platform's slice.  Go map iteration order is randomized; the model fixes
first-appearance order, on which the verified grouping and counting facts do
not depend. -/
def groupByPlatform (rows : List SLocation) : List (String × List KPoint) :=
  rows.foldl (fun acc r => insertPoint acc r.platform (toPoint r)) []

/-- A placemark element of the KML output: one LineString track per platform
group, plus one timestamped waypoint per individual point. -/
inductive Placemark where
  | line (platform : String) (pts : List KPoint)
  | waypoint (pt : KPoint)
deriving DecidableEq, Repr

/-- Whether a placemark is a connected-path (LineString) element. -/
def Placemark.isLine : Placemark → Bool
  | .line _ _ => true
  | .waypoint _ => false

/-- Whether a placemark is an individual-waypoint element. -/
def Placemark.isWaypoint : Placemark → Bool
  | .line _ _ => false
  | .waypoint _ => true

/-- The placemark elements emitted for the platform groups, in emission order:
for each group, its LineString placemark followed by one waypoint placemark per
point (src/unnamed/part_001 250-283). -/
def placemarksOf (groups : List (String × List KPoint)) : List Placemark :=
  (groups.map (fun g => Placemark.line g.1 g.2 :: g.2.map Placemark.waypoint)).flatten

/-- Go `fmt` %f formatting of a float64 coordinate.  Coordinates are modelled as
integers, so this is the integral case: the decimal digits and six zero
decimals. -/
def formatF (x : Float64) : String := toString x ++ ".000000"

/-- One `"%f,%f,0 "` coordinate entry of a LineString (longitude first),
src/unnamed/part_001 line 263. -/
def renderCoord (pt : KPoint) : String :=
  formatF pt.longitude ++ "," ++ formatF pt.latitude ++ ",0 "

/-- The text preceding the platform name in a LineString placemark. -/
def lineA : String := "\n    <Placemark>\n      <name>"

/-- The text between the platform name and the coordinate list in a LineString
placemark. -/
def lineB : String :=
  " Track</name>\n      <styleUrl>#yellowLineGreenPoly</styleUrl>\n      <LineString>\n        <extrude>1</extrude>\n        <tessellate>1</tessellate>\n        <altitudeMode>relativeToGround</altitudeMode>\n        <coordinates>"

/-- The text closing a LineString placemark. -/
def lineC : String := "</coordinates>\n      </LineString>\n    </Placemark>"

/-- The text preceding the timestamp name in a waypoint placemark. -/
def wpA : String := "\n    <Placemark>\n      <name>"

/-- The text between a waypoint's name and its TimeStamp when value. -/
def wpB : String := "</name>\n      <TimeStamp>\n        <when>"

/-- The text between a waypoint's when value and its coordinates. -/
def wpC : String :=
  "</when>\n      </TimeStamp>\n      <Point>\n        <coordinates>"

/-- The text closing a waypoint placemark. -/
def wpD : String := ",0</coordinates>\n      </Point>\n    </Placemark>"

/-- Serialization of one placemark element, by the format strings of
src/unnamed/part_001 251-259 and 272-281: the platform name, timestamps and
coordinates are interpolated with no XML escaping. -/
def renderPlacemark : Placemark → String
  | .line p pts => lineA ++ p ++ lineB ++ String.join (pts.map renderCoord) ++ lineC
  | .waypoint pt =>
    wpA ++ pt.timestamp ++ wpB ++ pt.timestamp ++ wpC
      ++ formatF pt.longitude ++ "," ++ formatF pt.latitude ++ wpD

/-- The initial KML string of handleDownloadKML (src/unnamed/part_001 213-225).
The Go code assigns this raw literal to `kml` without ever passing it through
`fmt.Sprintf`, so the `%s` placeholder in the Document name remains literally in
the output and the deployment identifier never appears in it. -/
def kmlHeader : String :=
  "<?xml version=\"1.0\" encoding=\"UTF-8\"?>\n<kml xmlns=\"http://www.opengis.net/kml/2.2\">\n  <Document>\n    <name>%s Track</name>\n    <Style id=\"yellowLineGreenPoly\">\n      <LineStyle>\n        <color>7f00ffff</color>\n        <width>4</width>\n      </LineStyle>\n      <PolyStyle>\n        <color>7f00ff00</color>\n      </PolyStyle>\n    </Style>"

/-- The closing KML string (src/unnamed/part_001 285-287). -/
def kmlFooter : String := "\n  </Document>\n</kml>"

/-- The complete KML document for one deployment: header, the rendered
placemarks of every platform group in emission order, footer
(src/unnamed/part_001 203-287). -/
def kmlDoc (dep : String) (s : SStore) : String :=
  kmlHeader
    ++ String.join ((placemarksOf (groupByPlatform (kmlRows dep s))).map renderPlacemark)
    ++ kmlFooter

/-- handleDownloadKML (src/unnamed/part_001 203-292): the KML document with the
geospatial content type and an attachment filename built from the deployment by
`fmt.Sprintf` with no sanitization. -/
def handleDownloadKML (dep : String) (s : SStore) : Response × SStore :=
  ({ status := 200, body := .text (kmlDoc dep s),
     headers :=
      [("Content-Type", "application/vnd.google-earth.kml+xml"),
       ("Content-Disposition", "attachment; filename=" ++ dep ++ "_track.kml")] }, s)

/-- The operations of the MongoDB variant, one per route (src/main.go 156-159). -/
inductive MOp where
  | post (now : String) (body : Json)
  | getLocations (dep plat : String)
  | getDeployments
  | getPlatforms (dep : String)

/-- Dispatch of a MongoDB-variant request to its handler. -/
def mStep : MOp → MStore → Response × MStore
  | .post now body, s => handlePostLocation now body s
  | .getLocations dep plat, s => handleGetLocations dep plat s
  | .getDeployments, s => handleGetDeployments s
  | .getPlatforms dep, s => handleGetPlatforms dep s

/-- Whether a MongoDB-variant operation is one of the read (GET) routes. -/
def MOp.isRead : MOp → Bool
  | .post _ _ => false
  | _ => true

/-- The operations of the SQLite variant, one per route
(src/unnamed/part_001 79-83). -/
inductive SOp where
  | post (body : Json)
  | getLocations (dep plat : String)
  | getDeployments
  | getPlatforms (dep : String)
  | downloadKML (dep : String)

/-- Dispatch of a SQLite-variant request to its handler. -/
def sStep : SOp → SStore → Response × SStore
  | .post body, s => sPostLocation body s
  | .getLocations dep plat, s => sGetLocations dep plat s
  | .getDeployments, s => sGetDeployments s
  | .getPlatforms dep, s => sGetPlatforms dep s
  | .downloadKML dep, s => handleDownloadKML dep s

/-- Whether a SQLite-variant operation is one of the read (GET) routes. -/
def SOp.isRead : SOp → Bool
  | .post _ => false
  | _ => true

/-- Drop an expected character sequence from the front of a character list;
`none` if the list does not start with it. -/
def dropPre : List Char → List Char → Option (List Char)
  | [], rest => some rest
  | _ :: _, [] => none
  | p :: ps, c :: cs => if c == p then dropPre ps cs else none

/-- After a raw ampersand in XML text, accept exactly the five predefined
entity references and return the remaining input. -/
def entityRest (cs : List Char) : Option (List Char) :=
  match dropPre "amp;".toList cs with
  | some r => some r
  | none =>
    match dropPre "lt;".toList cs with
    | some r => some r
    | none =>
      match dropPre "gt;".toList cs with
      | some r => some r
      | none =>
        match dropPre "quot;".toList cs with
        | some r => some r
        | none => dropPre "apos;".toList cs

/-- Characters allowed in the element names of this checker. -/
def nameChar (c : Char) : Bool := c.isAlphanum

/-- Split a character list into its leading run of name characters and the
rest. -/
def takeName : List Char → List Char × List Char
  | [] => ([], [])
  | c :: cs =>
    if nameChar c then
      let r := takeName cs
      (c :: r.1, r.2)
    else ([], c :: cs)

/-- Skip the attribute part of an open tag, up to and over the closing angle
bracket; fails on a raw opening angle bracket or end of input. -/
def skipAttrs : List Char → Option (List Char)
  | [] => none
  | c :: cs =>
    if c == '>' then some cs
    else if c == '<' then none
    else skipAttrs cs

/-- Skip an XML declaration, up to and over its question-mark closing. -/
def skipDecl : List Char → Option (List Char)
  | [] => none
  | c :: cs =>
    if c == '?' then
      match cs with
      | d :: ds => if d == '>' then some ds else skipDecl cs
      | [] => none
    else skipDecl cs

/-- One pass of a small XML well-formedness checker: tags must nest properly,
text may contain a raw ampersand only as a predefined entity reference, and a
raw opening angle bracket must begin a declaration, an open tag or a close tag.
`fuel` bounds the recursion; every step consumes input, so any fuel larger than
the input length is enough. -/
def xmlScan (fuel : Nat) (cs : List Char) (stack : List (List Char)) : Bool :=
  match fuel with
  | 0 => false
  | fuel + 1 =>
    match cs with
    | [] => stack.isEmpty
    | '<' :: rest =>
      match rest with
      | '?' :: r1 =>
        match skipDecl r1 with
        | some r2 => xmlScan fuel r2 stack
        | none => false
      | '/' :: r1 =>
        let nm := takeName r1
        match nm.2 with
        | '>' :: r2 =>
          match stack with
          | top :: st => nm.1 == top && xmlScan fuel r2 st
          | [] => false
        | _ => false
      | c :: r1 =>
        if nameChar c then
          let nm := takeName (c :: r1)
          match nm.2 with
          | '>' :: r2 => xmlScan fuel r2 (nm.1 :: stack)
          | ' ' :: r2 =>
            match skipAttrs r2 with
            | some r3 => xmlScan fuel r3 (nm.1 :: stack)
            | none => false
          | _ => false
        else false
      | [] => false
    | '&' :: rest =>
      match entityRest rest with
      | some r => xmlScan fuel r stack
      | none => false
    | _ :: rest => xmlScan fuel rest stack

/-- Well-formedness of an XML document under the checker above. -/
def xmlWF (s : String) : Bool :=
  xmlScan (s.toList.length + 1) s.toList []

/-- Whether the character list starts with the given pattern. -/
def startsWithL : List Char → List Char → Bool
  | [], _ => true
  | _ :: _, [] => false
  | p :: ps, c :: cs => p == c && startsWithL ps cs

/-- Whether the pattern occurs somewhere in the character list. -/
def containsSubL (pat : List Char) : List Char → Bool
  | [] => pat.isEmpty
  | c :: cs => startsWithL pat (c :: cs) || containsSubL pat cs

/-- Whether `pat` occurs as a substring of `s`. -/
def containsSub (s pat : String) : Bool := containsSubL pat.toList s.toList

/-- The list of locations carried by a MongoDB-variant response body. -/
def Response.locations (r : Response) : List Location :=
  match r.body with
  | .mlocs l => l
  | _ => []

/-- The list of rows carried by a SQLite-variant response body. -/
def Response.slocations (r : Response) : List SLocation :=
  match r.body with
  | .slocs l => l
  | _ => []

/-- The list of strings carried by a response body. -/
def Response.strings (r : Response) : List String :=
  match r.body with
  | .strs l => l
  | _ => []

/-- The points stored under platform `p` in the grouped platform data (empty if
the platform has no group). -/
def findPts (acc : List (String × List KPoint)) (p : String) : List KPoint :=
  match acc with
  | [] => []
  | (q, pts) :: rest => if q == p then pts else findPts rest p

/-- The sum of the group sizes of the grouped platform data. -/
def totalPts (acc : List (String × List KPoint)) : Nat :=
  (acc.map (fun g => g.2.length)).sum

/-- Equality of the client-visible fields of two stored documents: everything
except the server-assigned `createdAt`. -/
def visEq (a b : Location) : Bool :=
  a.deployment == b.deployment && a.platform == b.platform
    && a.latitude == b.latitude && a.longitude == b.longitude
    && a.timestamp == b.timestamp && a.source == b.source

/-- Fixture: a complete, well-typed submission body. -/
def exBody : Json :=
  .obj [("deployment", .str "D1"), ("platform", .str "P1"),
        ("timestamp", .str "2024-01-01T00:00:00Z"),
        ("latitude", .num 1), ("longitude", .num 2), ("source", .str "gps")]

/-- Fixture: the struct value `exBody` binds to. -/
def exLoc : Location :=
  { deployment := "D1", platform := "P1", latitude := 1, longitude := 2
    timestamp := "2024-01-01T00:00:00Z", source := "gps", createdAt := "" }

/-- Fixture: a submission body that also supplies a client-side `created_at`. -/
def exBodyCreated : Json :=
  .obj [("deployment", .str "D1"), ("platform", .str "P1"),
        ("timestamp", .str "2024-01-01T00:00:00Z"),
        ("latitude", .num 1), ("longitude", .num 2), ("source", .str "gps"),
        ("created_at", .str "1999-12-31T23:59:59Z")]

/-- Fixture: a submission body with no `platform` key at all. -/
def exBodyNoPlatform : Json :=
  .obj [("deployment", .str "D1"),
        ("timestamp", .str "2024-01-01T00:00:00Z"),
        ("latitude", .num 1), ("longitude", .num 2)]

/-- Fixture: a submission body whose `latitude` is a string, the wrong type. -/
def exBodyWrongType : Json :=
  .obj [("deployment", .str "D1"), ("platform", .str "P1"),
        ("timestamp", .str "2024-01-01T00:00:00Z"),
        ("latitude", .str "not-a-number"), ("longitude", .num 2)]

/-- Fixture: a SQLite row with the later timestamp, inserted first. -/
def sRowB : SLocation :=
  { deployment := "D1", platform := "P1", latitude := 1, longitude := 2
    timestamp := "2024-01-02T00:00:00Z", source := "gps" }

/-- Fixture: a SQLite row with the earlier timestamp, inserted second. -/
def sRowA : SLocation :=
  { deployment := "D1", platform := "P1", latitude := 3, longitude := 4
    timestamp := "2024-01-01T00:00:00Z", source := "gps" }

/-- Fixture: a SQLite row on platform P2. -/
def sRowP2 : SLocation :=
  { deployment := "D1", platform := "P2", latitude := 5, longitude := 6
    timestamp := "2024-01-03T00:00:00Z", source := "gps" }

/-- Fixture: a SQLite row whose platform name contains a raw ampersand. -/
def sRowAmp : SLocation :=
  { deployment := "D1", platform := "A&B", latitude := 3, longitude := 4
    timestamp := "2024-01-01T00:00:00Z", source := "gps" }

/-- A known struct key paired with a wrong-typed value makes `applyField` fail,
whatever the partially decoded struct is. -/
theorem applyField_err (k : String) (v : Json) (loc : Location)
    (h : fieldOk k v = false) : ∃ e, applyField loc k v = Except.error e := by
  by_cases h1 : k = "deployment"
  · subst h1; cases v <;> first | exact ⟨_, rfl⟩ | exact Bool.noConfusion h
  by_cases h2 : k = "platform"
  · subst h2; cases v <;> first | exact ⟨_, rfl⟩ | exact Bool.noConfusion h
  by_cases h3 : k = "timestamp"
  · subst h3; cases v <;> first | exact ⟨_, rfl⟩ | exact Bool.noConfusion h
  by_cases h4 : k = "source"
  · subst h4; cases v <;> first | exact ⟨_, rfl⟩ | exact Bool.noConfusion h
  by_cases h5 : k = "created_at"
  · subst h5; cases v <;> first | exact ⟨_, rfl⟩ | exact Bool.noConfusion h
  by_cases h6 : k = "latitude"
  · subst h6; cases v <;> first | exact ⟨_, rfl⟩ | exact Bool.noConfusion h
  by_cases h7 : k = "longitude"
  · subst h7; cases v <;> first | exact ⟨_, rfl⟩ | exact Bool.noConfusion h
  exfalso
  simp only [fieldOk, beq_iff_eq, h1, h2, h3, h4, h5, h6, h7] at h
  simp_all

/-- Decoding an object that contains a wrong-typed known field fails, from
whatever struct value the fold starts. -/
theorem foldlM_applyField_err :
    ∀ (fields : List (String × Json)) (loc : Location) (k : String) (v : Json),
      (k, v) ∈ fields → fieldOk k v = false →
      ∃ e, fields.foldlM (fun l kv => applyField l kv.1 kv.2) loc = Except.error e := by
  intro fields
  induction fields with
  | nil => intro loc k v hmem; cases hmem
  | cons hd tl ih =>
    intro loc k v hmem hbad
    cases hmem with
    | head =>
      obtain ⟨e, he⟩ := applyField_err k v loc hbad
      exact ⟨e, by rw [List.foldlM_cons, he]; rfl⟩
    | tail _ hmem =>
      cases hh : applyField loc hd.1 hd.2 with
      | error a => exact ⟨a, by rw [List.foldlM_cons, hh]; rfl⟩
      | ok l2 =>
        obtain ⟨e, he⟩ := ih l2 k v hmem hbad
        refine ⟨e, ?h⟩
        rw [List.foldlM_cons, hh]
        exact he

/-- Binding a JSON object that contains a wrong-typed known field fails. -/
theorem bindJSON_err (fields : List (String × Json)) (k : String) (v : Json)
    (hmem : (k, v) ∈ fields) (hbad : fieldOk k v = false) :
    ∃ e, bindJSON (.obj fields) = Except.error e :=
  foldlM_applyField_err fields zeroLocation k v hmem hbad

/-- C1, counterexample: the claim is false on the code.  A submission whose body
is missing the required field `platform` is not rejected: it is accepted with
status 200 and a record is inserted (with `platform` left as the empty string),
rather than answered with 400 and no insert. -/
theorem C1_counterexample :
    (handlePostLocation "t0" exBodyNoPlatform []).1.status = 200 ∧
    (handlePostLocation "t0" exBodyNoPlatform []).2 ≠ [] := by
  decide

/-- C1 (amended): a POST whose JSON body binds some known struct field to a
value of the wrong type is rejected with status 400 and the store is unchanged;
a body missing required fields, however, is accepted: the missing fields keep
their zero values and the record is inserted (shown for the body with no
`platform` key, over every store and server time). -/
theorem C1_thm :
    (∀ (now : String) (s : MStore) (fields : List (String × Json)) (k : String) (v : Json),
        (k, v) ∈ fields → fieldOk k v = false →
        (handlePostLocation now (.obj fields) s).1.status = 400 ∧
        (handlePostLocation now (.obj fields) s).2 = s) ∧
    (∀ (now : String) (s : MStore),
        handlePostLocation now exBodyNoPlatform s =
          ({ status := 200, body := .kv [("status", "success")] },
           s ++ [{ deployment := "D1", platform := "", latitude := 1, longitude := 2,
                   timestamp := "2024-01-01T00:00:00Z", source := "", createdAt := now }])) := by
  constructor
  · intro now s fields k v hmem hbad
    obtain ⟨e, he⟩ := bindJSON_err fields k v hmem hbad
    unfold handlePostLocation
    rw [he]
    exact ⟨rfl, rfl⟩
  · intro now s
    rfl

/-- Witness for C1: the body whose `latitude` is the string "not-a-number" is
rejected with 400 and an empty store stays empty. -/
theorem C1_witness :
    (handlePostLocation "t0" exBodyWrongType []).1.status = 400 ∧
    (handlePostLocation "t0" exBodyWrongType []).2 = [] :=
  C1_thm.1 "t0" [] _ "latitude" (Json.str "not-a-number")
    (List.mem_cons_of_mem _ (List.mem_cons_of_mem _ (List.mem_cons_of_mem _
      (List.mem_cons_self _ _))))
    rfl

/-- The MongoDB query filter matches a document exactly when each non-empty
parameter equals the corresponding field. -/
theorem matchFilter_iff (dep plat : String) (r : Location) :
    matchFilter dep plat r = true ↔
      (dep ≠ "" → r.deployment = dep) ∧ (plat ≠ "" → r.platform = plat) := by
  simp [matchFilter, Bool.and_eq_true, Bool.or_eq_true, beq_iff_eq,
    or_iff_not_imp_left]

/-- The character-list comparison is total. -/
theorem charListLe_total :
    ∀ as bs, charListLe as bs = true ∨ charListLe bs as = true := by
  intro as
  induction as with
  | nil => intro bs; left; rfl
  | cons a as ih =>
    intro bs
    cases bs with
    | nil => right; rfl
    | cons b bs =>
      rcases Nat.lt_trichotomy a.toNat b.toNat with h1 | h1 | h1
      · left; simp [charListLe, h1]
      · have hn1 : ¬ a.toNat < b.toNat := by omega
        have hn2 : ¬ b.toNat < a.toNat := by omega
        rcases ih bs with h | h
        · left; simp [charListLe, hn1, hn2, h]
        · right; simp [charListLe, hn1, hn2, h]
      · right; simp [charListLe, h1]

/-- The character-list comparison is transitive. -/
theorem charListLe_trans :
    ∀ as bs cs, charListLe as bs = true → charListLe bs cs = true →
      charListLe as cs = true := by
  intro as
  induction as with
  | nil => intro bs cs hab hbc; rfl
  | cons a as ih =>
    intro bs cs hab hbc
    cases bs with
    | nil => exact Bool.noConfusion hab
    | cons b bs =>
      cases cs with
      | nil => exact Bool.noConfusion hbc
      | cons c cs =>
        rcases Nat.lt_trichotomy a.toNat b.toNat with h1 | h1 | h1
        · rcases Nat.lt_trichotomy b.toNat c.toNat with h2 | h2 | h2
          · have h3 : a.toNat < c.toNat := Nat.lt_trans h1 h2
            simp [charListLe, h3]
          · have h3 : a.toNat < c.toNat := by omega
            simp [charListLe, h3]
          · have hn1 : ¬ b.toNat < c.toNat := by omega
            simp [charListLe, hn1, h2] at hbc
        · have hn1 : ¬ a.toNat < b.toNat := by omega
          have hn2 : ¬ b.toNat < a.toNat := by omega
          simp only [charListLe, hn1, if_false, hn2] at hab
          rcases Nat.lt_trichotomy b.toNat c.toNat with h2 | h2 | h2
          · have h3 : a.toNat < c.toNat := by omega
            simp [charListLe, h3]
          · have hn3 : ¬ b.toNat < c.toNat := by omega
            have hn4 : ¬ c.toNat < b.toNat := by omega
            simp only [charListLe, hn3, if_false, hn4] at hbc
            have hn5 : ¬ a.toNat < c.toNat := by omega
            have hn6 : ¬ c.toNat < a.toNat := by omega
            simp only [charListLe, hn5, if_false, hn6]
            exact ih bs cs hab hbc
          · have hn3 : ¬ b.toNat < c.toNat := by omega
            simp [charListLe, hn3, h2] at hbc
        · have hn1 : ¬ a.toNat < b.toNat := by omega
          simp [charListLe, hn1, h1] at hab

/-- Totality of the timestamp comparison on MongoDB documents. -/
theorem tsLe_total : ∀ a b : Location, tsLe a b ∨ tsLe b a :=
  fun a b => charListLe_total a.timestamp.data b.timestamp.data

/-- Transitivity of the timestamp comparison on MongoDB documents. -/
theorem tsLe_trans : ∀ a b c : Location, tsLe a b → tsLe b c → tsLe a c :=
  fun a b c => charListLe_trans a.timestamp.data b.timestamp.data c.timestamp.data

/-- Totality of the timestamp comparison on SQLite rows. -/
theorem sTsLe_total : ∀ a b : SLocation, sTsLe a b ∨ sTsLe b a :=
  fun a b => charListLe_total a.timestamp.data b.timestamp.data

/-- Transitivity of the timestamp comparison on SQLite rows. -/
theorem sTsLe_trans : ∀ a b c : SLocation, sTsLe a b → sTsLe b c → sTsLe a c :=
  fun a b c => charListLe_trans a.timestamp.data b.timestamp.data c.timestamp.data

/-- C2, counterexample: the claim is false on the SQLite variant.  With rows
inserted out of timestamp order, the unfiltered list-locations response returns
them in insertion order (its SELECT has no ORDER BY), which is not
non-decreasing by timestamp. -/
theorem C2_counterexample :
    (sGetLocations "" "" [sRowB, sRowA]).1.slocations = [sRowB, sRowA] ∧
    ¬ List.Pairwise sTsLe ((sGetLocations "" "" [sRowB, sRowA]).1.slocations) := by
  constructor
  · rfl
  · decide

/-- C2 (amended): in the MongoDB variant every list-locations response is
non-decreasing by timestamp string comparison, for every filter; the SQLite
variant applies no ordering — its response is a sublist of the store in
insertion order, so it is timestamp-ordered only if the insertions were. -/
theorem C2_thm :
    (∀ (dep plat : String) (s : MStore),
        List.Pairwise tsLe ((handleGetLocations dep plat s).1.locations)) ∧
    (∀ (dep plat : String) (s : SStore),
        ((sGetLocations dep plat s).1.slocations).Sublist s) := by
  constructor
  · intro dep plat s
    haveI : IsTotal Location tsLe := ⟨tsLe_total⟩
    haveI : IsTrans Location tsLe := ⟨tsLe_trans⟩
    exact List.sorted_insertionSort tsLe (s.filter (matchFilter dep plat))
  · intro dep plat s
    by_cases h1 : (dep == "") = true
    · simp only [sGetLocations, h1, if_true, Response.slocations]
      exact List.Sublist.refl s
    · by_cases h2 : (plat == "") = true <;>
        simp only [sGetLocations, h1, h2, if_true, if_false, Response.slocations] <;>
        exact List.filter_sublist s

/-- C3, counterexample: the claim is false on the SQLite variant.  Supplying a
platform filter without a deployment filter does not restrict the result: a row
on platform P2 is returned by a query filtering on platform P1. -/
theorem C3_counterexample :
    sRowP2 ∈ (sGetLocations "" "P1" [sRowP2]).1.slocations ∧
    sRowP2.platform ≠ "P1" := by
  decide

/-- C3 (amended): in the MongoDB variant the two filters are independent
optional equality filters, exactly as claimed; in the SQLite variant this holds
only when a deployment filter is supplied — the platform filter is applied
solely inside the deployment branch, so without a deployment filter the
platform parameter is ignored. -/
theorem C3_thm :
    (∀ (dep plat : String) (s : MStore) (r : Location),
        r ∈ (handleGetLocations dep plat s).1.locations ↔
          r ∈ s ∧ (dep ≠ "" → r.deployment = dep) ∧ (plat ≠ "" → r.platform = plat)) ∧
    (∀ (dep plat : String) (s : SStore) (r : SLocation), dep ≠ "" →
        (r ∈ (sGetLocations dep plat s).1.slocations ↔
          r ∈ s ∧ r.deployment = dep ∧ (plat ≠ "" → r.platform = plat))) := by
  constructor
  · intro dep plat s r
    simp [handleGetLocations, Response.locations, List.mem_insertionSort,
      List.mem_filter, matchFilter_iff, and_assoc]
  · intro dep plat s r hdep
    have h1 : (dep == "") = false := by simp [beq_iff_eq, hdep]
    by_cases h2 : plat = ""
    · subst h2
      simp [sGetLocations, h1, Response.slocations, List.mem_filter, beq_iff_eq]
    · have h2f : (plat == "") = false := by simp [beq_iff_eq, h2]
      simp [sGetLocations, h1, h2f, Response.slocations, List.mem_filter,
        beq_iff_eq, Bool.and_eq_true, h2, and_assoc]

/-- Witness for C3: a record with deployment D1 is returned by the matching
MongoDB query, and a SQLite row with deployment D1 and platform P1 is returned
by the doubly filtered SQLite query. -/
theorem C3_witness :
    { exLoc with createdAt := "t9" } ∈
      (handleGetLocations "D1" "" [{ exLoc with createdAt := "t9" }]).1.locations ∧
    sRowA ∈ (sGetLocations "D1" "P1" [sRowA, sRowP2]).1.slocations :=
  ⟨(C3_thm.1 "D1" "" [{ exLoc with createdAt := "t9" }] _).mpr
      ⟨by decide, by decide, by decide⟩,
   (C3_thm.2 "D1" "P1" [sRowA, sRowP2] sRowA (by decide)).mpr
      ⟨by decide, by decide, by decide⟩⟩

/-- Appending a point to the platform map changes exactly its platform's group,
at the end of that group. -/
theorem findPts_insertPoint (acc : List (String × List KPoint)) (q : String)
    (pt : KPoint) (p : String) :
    findPts (insertPoint acc q pt) p =
      if q == p then findPts acc p ++ [pt] else findPts acc p := by
  induction acc with
  | nil =>
    by_cases h : (q == p) = true <;> simp [insertPoint, findPts, h]
  | cons hd rest ih =>
    obtain ⟨a, pts⟩ := hd
    by_cases haq : (a == q) = true
    · have haq2 : a = q := by simpa [beq_iff_eq] using haq
      subst haq2
      by_cases hap : (a == p) = true
      · have hap2 : a = p := by simpa [beq_iff_eq] using hap
        subst hap2
        simp [insertPoint, findPts]
      · simp [insertPoint, findPts, hap]
    · have haq2 : ¬ a = q := by simpa [beq_iff_eq] using haq
      by_cases hap : (a == p) = true
      · have hap2 : a = p := by simpa [beq_iff_eq] using hap
        subst hap2
        have hqp : (q == a) = false := by simp [beq_iff_eq]; exact fun h => haq2 h.symm
        simp [insertPoint, findPts, haq, hqp]
      · simp [insertPoint, findPts, haq, hap, ih]

/-- Scanning rows into the platform map appends each platform's points, in
row-scan order, to whatever the map already held. -/
theorem findPts_foldl (rows : List SLocation) :
    ∀ (acc : List (String × List KPoint)) (p : String),
      findPts (rows.foldl (fun acc r => insertPoint acc r.platform (toPoint r)) acc) p =
        findPts acc p ++ (rows.filter (fun r => r.platform == p)).map toPoint := by
  induction rows with
  | nil => intro acc p; simp
  | cons r rows ih =>
    intro acc p
    rw [List.foldl_cons, ih]
    by_cases h : (r.platform == p) = true
    · simp [findPts_insertPoint, h, List.filter_cons]
    · simp [findPts_insertPoint, h, List.filter_cons]

/-- The group of platform `p` is the subsequence of the scanned rows on
platform `p`, in scan order. -/
theorem findPts_groupByPlatform (rows : List SLocation) (p : String) :
    findPts (groupByPlatform rows) p =
      (rows.filter (fun r => r.platform == p)).map toPoint := by
  have h := findPts_foldl rows [] p
  simpa [groupByPlatform, findPts] using h

/-- Appending a point either reuses its platform's group or opens a new group
at the end: the key list grows by `addDistinct`. -/
theorem keys_insertPoint (acc : List (String × List KPoint)) (q : String) (pt : KPoint) :
    (insertPoint acc q pt).map Prod.fst = addDistinct (acc.map Prod.fst) q := by
  induction acc with
  | nil => simp [insertPoint, addDistinct]
  | cons hd rest ih =>
    obtain ⟨a, pts⟩ := hd
    by_cases haq : (a == q) = true
    · have haq2 : a = q := by simpa [beq_iff_eq] using haq
      subst haq2
      simp [insertPoint, addDistinct]
    · have haq2 : ¬ a = q := by simpa [beq_iff_eq] using haq
      have hq2 : ¬ q = a := fun h => haq2 h.symm
      by_cases hmem : q ∈ rest.map Prod.fst
      · simp [insertPoint, haq, ih, addDistinct, hmem, hq2]
      · simp [insertPoint, haq, ih, addDistinct, hmem, hq2]

/-- The key list of the platform map built from `rows` is the distinct platform
list of `rows`, continued from any starting map. -/
theorem keys_foldl (rows : List SLocation) :
    ∀ (acc : List (String × List KPoint)),
      (rows.foldl (fun acc r => insertPoint acc r.platform (toPoint r)) acc).map Prod.fst =
        List.foldl addDistinct (acc.map Prod.fst) (rows.map (fun r => r.platform)) := by
  induction rows with
  | nil => intro acc; simp
  | cons r rows ih =>
    intro acc
    rw [List.foldl_cons, ih, List.map_cons, List.foldl_cons, keys_insertPoint]

/-- The platform map's keys are the distinct platforms of the scanned rows in
first-appearance order. -/
theorem keys_groupByPlatform (rows : List SLocation) :
    (groupByPlatform rows).map Prod.fst =
      distinctFirst (rows.map (fun r => r.platform)) := by
  simpa [groupByPlatform, distinctFirst] using keys_foldl rows []

/-- Membership in a distinct-value fold: exactly the starting values and the
scanned values. -/
theorem mem_foldl_addDistinct (l : List String) :
    ∀ (acc : List String) (x : String),
      x ∈ List.foldl addDistinct acc l ↔ x ∈ acc ∨ x ∈ l := by
  induction l with
  | nil => intro acc x; simp
  | cons a l ih =>
    intro acc x
    rw [List.foldl_cons, ih]
    by_cases h : a ∈ acc
    · simp only [addDistinct, if_pos h, List.mem_cons]
      constructor
      · rintro (hx | hx)
        · exact Or.inl hx
        · exact Or.inr (Or.inr hx)
      · rintro (hx | rfl | hx)
        · exact Or.inl hx
        · exact Or.inl h
        · exact Or.inr hx
    · simp only [addDistinct, if_neg h, List.mem_append, List.mem_singleton,
        List.mem_cons]
      tauto

/-- A distinct-value fold started from a duplicate-free list stays
duplicate-free. -/
theorem nodup_foldl_addDistinct (l : List String) :
    ∀ (acc : List String), acc.Nodup → (List.foldl addDistinct acc l).Nodup := by
  induction l with
  | nil => intro acc h; simpa using h
  | cons a l ih =>
    intro acc h
    rw [List.foldl_cons]
    apply ih
    by_cases hmem : a ∈ acc
    · simpa [addDistinct, hmem] using h
    · simp [addDistinct, hmem, List.nodup_append, h]

/-- The distinct platform list has no duplicates. -/
theorem distinctFirst_nodup (l : List String) : (distinctFirst l).Nodup :=
  nodup_foldl_addDistinct l [] List.nodup_nil

/-- The distinct platform list has the same members as its source. -/
theorem mem_distinctFirst (l : List String) (x : String) :
    x ∈ distinctFirst l ↔ x ∈ l := by
  rw [distinctFirst, mem_foldl_addDistinct]
  simp

/-- The length of the distinct platform list is the number of distinct
values. -/
theorem length_distinctFirst (l : List String) :
    (distinctFirst l).length = l.toFinset.card := by
  have h1 : (distinctFirst l).toFinset = l.toFinset := by
    apply Finset.ext
    intro x
    simp [List.mem_toFinset, mem_distinctFirst]
  calc (distinctFirst l).length
      = (distinctFirst l).toFinset.card :=
        (List.toFinset_card_of_nodup (distinctFirst_nodup l)).symm
    _ = l.toFinset.card := by rw [h1]

/-- Appending a point to the platform map adds exactly one point in total. -/
theorem totalPts_insertPoint (acc : List (String × List KPoint)) (q : String)
    (pt : KPoint) : totalPts (insertPoint acc q pt) = totalPts acc + 1 := by
  induction acc with
  | nil => simp [insertPoint, totalPts]
  | cons hd rest ih =>
    obtain ⟨a, pts⟩ := hd
    by_cases haq : (a == q) = true
    · simp [insertPoint, haq, totalPts]
      omega
    · simp [insertPoint, haq, totalPts] at ih ⊢
      omega

/-- Scanning rows into the platform map adds one point per row. -/
theorem totalPts_foldl (rows : List SLocation) :
    ∀ (acc : List (String × List KPoint)),
      totalPts (rows.foldl (fun acc r => insertPoint acc r.platform (toPoint r)) acc) =
        totalPts acc + rows.length := by
  induction rows with
  | nil => intro acc; simp
  | cons r rows ih =>
    intro acc
    rw [List.foldl_cons, ih, totalPts_insertPoint, List.length_cons]
    omega

/-- The platform map holds as many points as there are scanned rows. -/
theorem totalPts_groupByPlatform (rows : List SLocation) :
    totalPts (groupByPlatform rows) = rows.length := by
  simpa [groupByPlatform, totalPts] using totalPts_foldl rows []

/-- One platform group's placemark segment: its connected path followed by its
waypoints, then the remaining groups. -/
theorem placemarksOf_cons (g : String × List KPoint)
    (gs : List (String × List KPoint)) :
    placemarksOf (g :: gs) =
      Placemark.line g.1 g.2 :: (g.2.map Placemark.waypoint ++ placemarksOf gs) := by
  simp [placemarksOf]

/-- The emitted placemark list has one connected-path element per group. -/
theorem countP_isLine_placemarksOf (groups : List (String × List KPoint)) :
    List.countP (fun pm => pm.isLine) (placemarksOf groups) = groups.length := by
  induction groups with
  | nil => rfl
  | cons g gs ih =>
    rw [placemarksOf_cons, List.countP_cons, List.countP_append]
    have h1 : List.countP (fun pm => pm.isLine) (g.2.map Placemark.waypoint) = 0 := by
      rw [List.countP_map]
      simp [Function.comp, Placemark.isLine]
    rw [h1, ih]
    simp [Placemark.isLine]

/-- The emitted placemark list has one waypoint element per stored point. -/
theorem countP_isWaypoint_placemarksOf (groups : List (String × List KPoint)) :
    List.countP (fun pm => pm.isWaypoint) (placemarksOf groups) = totalPts groups := by
  induction groups with
  | nil => rfl
  | cons g gs ih =>
    rw [placemarksOf_cons, List.countP_cons, List.countP_append]
    have h1 : List.countP (fun pm => pm.isWaypoint) (g.2.map Placemark.waypoint)
        = g.2.length := by
      rw [List.countP_map]
      simp [Function.comp, Placemark.isWaypoint]
    rw [h1, ih]
    simp [Placemark.isWaypoint, totalPts]

/-- The KML query sees exactly the platforms stored for the deployment. -/
theorem kmlRows_platform_toFinset (dep : String) (s : SStore) :
    ((kmlRows dep s).map (fun r => r.platform)).toFinset =
      ((s.filter (fun r => r.deployment == dep)).map (fun r => r.platform)).toFinset := by
  apply Finset.ext
  intro x
  simp [List.mem_toFinset, List.mem_map, kmlRows, List.mem_insertionSort]

/-- C4: for every deployment, the track export emits exactly one connected-path
(LineString) placemark per distinct platform among the deployment's stored rows
and exactly one waypoint placemark per stored row; for a deployment with zero
stored rows it emits no placemark elements at all — the output is the bare
container document, which is well-formed XML — rather than an error. -/
theorem C4_thm :
    ∀ (dep : String) (s : SStore),
      List.countP (fun pm => pm.isLine) (placemarksOf (groupByPlatform (kmlRows dep s)))
          = ((s.filter (fun r => r.deployment == dep)).map
              (fun r => r.platform)).toFinset.card ∧
      List.countP (fun pm => pm.isWaypoint) (placemarksOf (groupByPlatform (kmlRows dep s)))
          = (s.filter (fun r => r.deployment == dep)).length ∧
      (s.filter (fun r => r.deployment == dep) = [] →
        placemarksOf (groupByPlatform (kmlRows dep s)) = [] ∧
        kmlDoc dep s = kmlHeader ++ kmlFooter) ∧
      xmlWF (kmlHeader ++ kmlFooter) = true := by
  intro dep s
  refine ⟨?lines, ?wps, ?emp, ?wf⟩
  case lines =>
    rw [countP_isLine_placemarksOf]
    calc (groupByPlatform (kmlRows dep s)).length
        = ((groupByPlatform (kmlRows dep s)).map Prod.fst).length :=
          (List.length_map _ _).symm
      _ = (distinctFirst ((kmlRows dep s).map (fun r => r.platform))).length := by
          rw [keys_groupByPlatform]
      _ = ((kmlRows dep s).map (fun r => r.platform)).toFinset.card :=
          length_distinctFirst _
      _ = ((s.filter (fun r => r.deployment == dep)).map
            (fun r => r.platform)).toFinset.card := by
          rw [kmlRows_platform_toFinset]
  case wps =>
    rw [countP_isWaypoint_placemarksOf, totalPts_groupByPlatform]
    exact (List.perm_insertionSort sTsLe _).length_eq
  case emp =>
    intro h
    have hrows : kmlRows dep s = [] := by
      unfold kmlRows
      rw [h]
      rfl
    constructor
    · rw [hrows]; rfl
    · unfold kmlDoc
      rw [hrows]
      show kmlHeader ++ String.join [] ++ kmlFooter = kmlHeader ++ kmlFooter
      simp [String.join]
  case wf => decide

/-- Witness for C4: a deployment with no stored rows yields the bare container
document with no placemark elements. -/
theorem C4_witness :
    placemarksOf (groupByPlatform (kmlRows "D9" [sRowA])) = [] ∧
    kmlDoc "D9" [sRowA] = kmlHeader ++ kmlFooter :=
  (C4_thm "D9" [sRowA]).2.2.1 (by decide)

/-- C5: the per-platform grouping of the track export is a stable partition of
the timestamp-ordered query result: platform `p`'s group — whose points feed
both the connected path and the waypoint placemarks in the same order — is
exactly the subsequence of the ordered rows on platform `p`, with no re-sort
inside the group. -/
theorem C5_thm :
    ∀ (dep p : String) (s : SStore),
      findPts (groupByPlatform (kmlRows dep s)) p =
        ((kmlRows dep s).filter (fun r => r.platform == p)).map toPoint ∧
      ((kmlRows dep s).filter (fun r => r.platform == p)).Sublist (kmlRows dep s) := by
  intro dep p s
  exact ⟨findPts_groupByPlatform _ p, List.filter_sublist _⟩

/-- C6: list-platforms for a deployment with no stored records answers 200 with
an empty sequence in both variants, and every read route of either variant
always answers 200 on the pure store model — absence of matching data is never
surfaced as a distinct not-found error. -/
theorem C6_thm :
    (∀ (dep : String) (s : MStore), (∀ r ∈ s, r.deployment ≠ dep) →
        handleGetPlatforms dep s = ({ status := 200, body := .strs [] }, s)) ∧
    (∀ (dep : String) (s : SStore), (∀ r ∈ s, r.deployment ≠ dep) →
        sGetPlatforms dep s = ({ status := 200, body := .strs [] }, s)) ∧
    (∀ (op : MOp) (s : MStore), MOp.isRead op = true → ((mStep op s).1).status = 200) ∧
    (∀ (op : SOp) (s : SStore), SOp.isRead op = true → ((sStep op s).1).status = 200) := by
  refine ⟨?m, ?s, ?mr, ?sr⟩
  case m =>
    intro dep s h
    have hf : s.filter (fun r => r.deployment == dep) = [] := by
      rw [List.filter_eq_nil_iff]
      intro r hr
      simp only [beq_iff_eq]
      exact h r hr
    unfold handleGetPlatforms
    rw [hf]
    rfl
  case s =>
    intro dep s h
    have hf : s.filter (fun r => r.deployment == dep) = [] := by
      rw [List.filter_eq_nil_iff]
      intro r hr
      simp only [beq_iff_eq]
      exact h r hr
    unfold sGetPlatforms
    rw [hf]
    rfl
  case mr =>
    intro op s hop
    cases op with
    | post now body => exact Bool.noConfusion hop
    | getLocations dep plat => rfl
    | getDeployments => rfl
    | getPlatforms dep => rfl
  case sr =>
    intro op s hop
    cases op with
    | post body => exact Bool.noConfusion hop
    | getLocations dep plat => rfl
    | getDeployments => rfl
    | getPlatforms dep => rfl
    | downloadKML dep => rfl

/-- Witness for C6: an unknown deployment yields 200 with an empty platform
sequence in both variants, and two concrete reads answer 200. -/
theorem C6_witness :
    handleGetPlatforms "DX" [] = ({ status := 200, body := .strs [] }, []) ∧
    sGetPlatforms "DX" [sRowA] = ({ status := 200, body := .strs [] }, [sRowA]) ∧
    ((mStep MOp.getDeployments []).1).status = 200 ∧
    ((sStep (SOp.downloadKML "D1") [sRowA]).1).status = 200 :=
  ⟨C6_thm.1 "DX" [] (by simp),
   C6_thm.2.1 "DX" [sRowA] (by decide),
   C6_thm.2.2.1 MOp.getDeployments [] rfl,
   C6_thm.2.2.2 (SOp.downloadKML "D1") [sRowA] rfl⟩

/-- A predicate counts the same over the unfiltered list-locations response as
over the store itself: the empty filter matches everything and the sort is a
permutation. -/
theorem countP_getLocations_unfiltered (s : MStore) (p : Location → Bool) :
    List.countP p ((handleGetLocations "" "" s).1.locations) = List.countP p s := by
  show List.countP p ((s.filter (matchFilter "" "")).insertionSort tsLe)
      = List.countP p s
  have h1 : s.filter (matchFilter "" "") = s := by
    rw [List.filter_eq_self]
    intro a _
    rfl
  rw [h1]
  exact (List.perm_insertionSort tsLe s).countP_eq p

/-- C7, counterexample: the claim is false on the code.  With a record of the
same visible fields already stored, a valid submission is accepted (there is no
deduplication) and the subsequent unfiltered query contains two records whose
visible fields equal the submitted fields, not exactly one. -/
theorem C7_counterexample :
    bindJSON exBody = Except.ok exLoc ∧
    (handlePostLocation "t1" exBody [{ exLoc with createdAt := "t0" }]).1.status = 200 ∧
    List.countP (visEq exLoc)
        ((handleGetLocations "" ""
          ((handlePostLocation "t1" exBody
            [{ exLoc with createdAt := "t0" }]).2)).1.locations) = 2 := by
  refine ⟨rfl, rfl, ?c⟩
  decide

/-- C7 (amended): a successful submission adds exactly one record matching its
visible fields (creation time excluded) to the unfiltered list-locations
result: the count of matching records grows by exactly one, so the result
includes exactly one match whenever the prior store held none. -/
theorem C7_thm :
    ∀ (now : String) (body : Json) (s : MStore) (loc : Location),
      bindJSON body = Except.ok loc →
      List.countP (visEq loc)
          ((handleGetLocations "" "" ((handlePostLocation now body s).2)).1.locations)
        = List.countP (visEq loc) ((handleGetLocations "" "" s).1.locations) + 1 := by
  intro now body s loc hbind
  have hpost : (handlePostLocation now body s).2
      = s ++ [{ loc with createdAt := now }] := by
    unfold handlePostLocation
    rw [hbind]
  rw [hpost, countP_getLocations_unfiltered, countP_getLocations_unfiltered,
    List.countP_append, List.countP_singleton]
  have hv : visEq loc { loc with createdAt := now } = true := by
    simp [visEq]
  rw [hv]
  simp

/-- Witness for C7: submitting the fixture body into an empty store yields
exactly one matching record in the unfiltered query. -/
theorem C7_witness :
    bindJSON exBody = Except.ok exLoc ∧
    List.countP (visEq exLoc)
        ((handleGetLocations "" "" ((handlePostLocation "t1" exBody []).2)).1.locations)
      = List.countP (visEq exLoc) ((handleGetLocations "" "" ([] : MStore)).1.locations)
          + 1 :=
  ⟨rfl, C7_thm "t1" exBody [] exLoc rfl⟩

/-- C8: for every accepted submission the stored document is exactly the bound
struct with `createdAt` overwritten by the server time — any client-supplied
created_at value is discarded — and every other submitted field is stored
unchanged. -/
theorem C8_thm :
    ∀ (now : String) (body : Json) (s : MStore) (loc : Location),
      bindJSON body = Except.ok loc →
      handlePostLocation now body s =
        ({ status := 200, body := .kv [("status", "success")] },
         s ++ [{ loc with createdAt := now }]) := by
  intro now body s loc hbind
  unfold handlePostLocation
  rw [hbind]

/-- Witness for C8: a body carrying a client-side created_at of 1999 binds to a
struct with that creation time, yet the stored record carries the server time
2024 and all other fields unchanged. -/
theorem C8_witness :
    bindJSON exBodyCreated =
      Except.ok { exLoc with createdAt := "1999-12-31T23:59:59Z" } ∧
    handlePostLocation "2024-06-01T00:00:00Z" exBodyCreated [] =
      ({ status := 200, body := .kv [("status", "success")] },
       [{ exLoc with createdAt := "2024-06-01T00:00:00Z" }]) :=
  ⟨rfl,
   C8_thm "2024-06-01T00:00:00Z" exBodyCreated []
     { exLoc with createdAt := "1999-12-31T23:59:59Z" } rfl⟩

/-- C9: the store is append-only and reads are pure, in both variants: every
operation leaves the prior store as a prefix of the new store (no record is
ever mutated or deleted), and every read operation leaves the store exactly
unchanged and yields the same response when repeated on the state it left
behind. -/
theorem C9_thm :
    (∀ (op : MOp) (s : MStore), ∃ t, (mStep op s).2 = s ++ t) ∧
    (∀ (op : MOp) (s : MStore), MOp.isRead op = true →
        (mStep op s).2 = s ∧ mStep op ((mStep op s).2) = mStep op s) ∧
    (∀ (op : SOp) (s : SStore), ∃ t, (sStep op s).2 = s ++ t) ∧
    (∀ (op : SOp) (s : SStore), SOp.isRead op = true →
        (sStep op s).2 = s ∧ sStep op ((sStep op s).2) = sStep op s) := by
  refine ⟨?ma, ?mr, ?sa, ?sr⟩
  case ma =>
    intro op s
    cases op with
    | post now body =>
      cases h : bindJSON body with
      | error e => exact ⟨[], by simp [mStep, handlePostLocation, h]⟩
      | ok loc =>
        exact ⟨[{ loc with createdAt := now }], by simp [mStep, handlePostLocation, h]⟩
    | getLocations dep plat => exact ⟨[], by simp [mStep, handleGetLocations]⟩
    | getDeployments => exact ⟨[], by simp [mStep, handleGetDeployments]⟩
    | getPlatforms dep => exact ⟨[], by simp [mStep, handleGetPlatforms]⟩
  case mr =>
    intro op s hop
    cases op with
    | post now body => exact Bool.noConfusion hop
    | getLocations dep plat => exact ⟨rfl, rfl⟩
    | getDeployments => exact ⟨rfl, rfl⟩
    | getPlatforms dep => exact ⟨rfl, rfl⟩
  case sa =>
    intro op s
    cases op with
    | post body =>
      cases h : sBindJSON body with
      | error e => exact ⟨[], by simp [sStep, sPostLocation, h]⟩
      | ok loc => exact ⟨[loc], by simp [sStep, sPostLocation, h]⟩
    | getLocations dep plat => exact ⟨[], by simp [sStep, sGetLocations]⟩
    | getDeployments => exact ⟨[], by simp [sStep, sGetDeployments]⟩
    | getPlatforms dep => exact ⟨[], by simp [sStep, sGetPlatforms]⟩
    | downloadKML dep => exact ⟨[], by simp [sStep, handleDownloadKML]⟩
  case sr =>
    intro op s hop
    cases op with
    | post body => exact Bool.noConfusion hop
    | getLocations dep plat => exact ⟨rfl, rfl⟩
    | getDeployments => exact ⟨rfl, rfl⟩
    | getPlatforms dep => exact ⟨rfl, rfl⟩
    | downloadKML dep => exact ⟨rfl, rfl⟩

/-- Witness for C9: a concrete read of each variant leaves its store
unchanged. -/
theorem C9_witness :
    (mStep MOp.getDeployments [{ exLoc with createdAt := "t0" }]).2 =
        [{ exLoc with createdAt := "t0" }] ∧
    (sStep SOp.getDeployments [sRowA]).2 = [sRowA] :=
  ⟨(C9_thm.2.1 MOp.getDeployments [{ exLoc with createdAt := "t0" }] rfl).1,
   (C9_thm.2.2.2 SOp.getDeployments [sRowA] rfl).1⟩

/-- C10, counterexample: the claim is false as stated.  The deployment
identifier is not interpolated into the document name or body at all: the
header literal is never passed through Sprintf, so the exported document keeps
the literal placeholder as its name and does not contain the deployment string
anywhere. -/
theorem C10_counterexample :
    containsSub (kmlDoc "D1" []) "D1" = false ∧
    containsSub (kmlDoc "D1" []) "%s Track" = true := by
  constructor
  · decide
  · decide

/-- C10 (amended): the track export performs no XML escaping or header
sanitization: platform names and timestamps are interpolated verbatim into the
document body, and the deployment identifier verbatim into the
Content-Disposition filename; the document name, however, is always the literal
placeholder text because the header is never formatted.  A stored platform name
containing a raw ampersand therefore yields an export that is not well-formed
XML, while a clean platform name yields a well-formed one. -/
theorem C10_thm :
    (∀ (dep : String) (s : SStore),
        (handleDownloadKML dep s).1.headers =
          [("Content-Type", "application/vnd.google-earth.kml+xml"),
           ("Content-Disposition", "attachment; filename=" ++ dep ++ "_track.kml")]) ∧
    (∀ (p : String) (pts : List KPoint),
        renderPlacemark (.line p pts) =
          lineA ++ p ++ lineB ++ String.join (pts.map renderCoord) ++ lineC) ∧
    (∀ pt : KPoint,
        renderPlacemark (.waypoint pt) =
          wpA ++ pt.timestamp ++ wpB ++ pt.timestamp ++ wpC
            ++ formatF pt.longitude ++ "," ++ formatF pt.latitude ++ wpD) ∧
    containsSub (kmlDoc "D1" [sRowAmp]) "A&B" = true ∧
    xmlWF (kmlDoc "D1" [sRowAmp]) = false ∧
    xmlWF (kmlDoc "D1" [sRowA]) = true := by
  refine ⟨fun dep s => rfl, fun p pts => rfl, fun pt => rfl, ?c1, ?c2, ?c3⟩
  case c1 => decide
  case c2 => decide
  case c3 => decide
